/-
Verification of the xapers indexing/retrieval engine (src/xapers/database.py)
against its natural-language specification.

The engine is a thin layer over the Xapian index store.  Xapian itself is an
external collaborator (spec section 1 and section 6); its behavioural contract
(match-set ordering, coordinate weighting, last-docid semantics, the writer
lock) is modelled here from its documented behaviour as cited by the spec,
while everything in `database.py` is translated directly from the source.
Machine floats appear only as `match.weight / 42` compared against `0.9`;
CoordWeight weights are integers between 0 and 42, for which the float
comparison agrees exactly with the rational one used here (the gap between
38/42 and 0.9 is about 5e-3, far above double rounding error), so scores are
modelled as rationals.
-/
import Mathlib

namespace Xapers

/-! ## The Xapian store model

A document in the index store: its docid, its term set, and the value in
facet slot 0 (`NUMBER_VALUE_FACET['year']`), `none` when the document has no
year value (Xapian stores the empty string, which sorts before every
`sortable_serialise`d number). -/

structure XDoc where
  docid : Nat
  terms : List String
  year : Option Nat
deriving Repr, DecidableEq

/-- The Xapian database state visible to `database.py`: the documents present
and the highest docid ever used (`get_lastdocid`, which deletes do not
lower). -/
structure XStore where
  docs : List XDoc
  lastdocid : Nat
deriving Repr, DecidableEq

/-- `Database.xapian.get_doccount()`. -/
def XStore.doccount (db : XStore) : Nat := db.docs.length

/-- `Database.xapian.get_lastdocid()`: the highest document id which has been
used in the database (Xapian's documented contract; unchanged by deletes). -/
def XStore.getLastdocid (db : XStore) : Nat := db.lastdocid

/-- `Database.replace_document(docid, doc)` (database.py line 233-235), with
Xapian's documented effect: replace or create the record for `docid`, and
raise `lastdocid` to `docid` if it was below it. -/
def XStore.replaceDocument (db : XStore) (docid : Nat) (d : XDoc) : XStore :=
  { docs := { d with docid := docid } :: db.docs.filter (fun x => x.docid != docid),
    lastdocid := max db.lastdocid docid }

/-- `Database.delete_document(docid)` (database.py line 237-239), with
Xapian's documented effect: remove the record; `lastdocid` is unchanged, so
ids are never reused. -/
def XStore.deleteDocument (db : XStore) (docid : Nat) : XStore :=
  { docs := db.docs.filter (fun x => x.docid != docid),
    lastdocid := db.lastdocid }

/-- `Database._generate_docid` (database.py line 230-231):
`return self.xapian.get_lastdocid() + 1`. -/
def generate_docid (db : XStore) : Nat :=
  db.getLastdocid + 1

/-! ## Queries and the match-set model

A parsed query, abstracted to what `Enquire` consumes: which documents it
matches and the relevance weight it assigns each (boolean queries are
weight-neutral). -/

structure XQuery where
  sats : XDoc → Bool
  weight : XDoc → Nat

/-- `xapian.Query.MatchAll`: matches every document, weight-neutral. -/
def XQuery.matchAll : XQuery := ⟨fun _ => true, fun _ => 0⟩

/-- Order on facet-slot values as Xapian compares them: the stored bytes are
compared as strings, a missing value is the empty string (smallest), and
`sortable_serialise` preserves numeric order on the non-negative years the
indexer stores.  `valLt a b` means `a` sorts strictly before `b` ascending. -/
def valLt : Option Nat → Option Nat → Bool
  | none, none => false
  | none, some _ => true
  | some _, none => false
  | some a, some b => a < b

/-- Comparator for `sort == 'relevance'`:
`enquire.set_sort_by_relevance_then_value(0, True)` plus
`enquire.set_docid_order(xapian.Enquire.DESCENDING)` (database.py lines 289,
310).  Primary key relevance weight descending; secondary key the year value
with `reverse=True`, i.e. descending; remaining ties by descending docid. -/
def relevanceLe (q : XQuery) (a b : XDoc) : Bool :=
  if q.weight a != q.weight b then q.weight b < q.weight a
  else if a.year != b.year then valLt b.year a.year
  else b.docid ≤ a.docid

/-- Comparator for `sort == 'year'`:
`enquire.set_sort_by_value_then_relevance(0, True)` plus descending docid
order (database.py lines 291, 310).  Primary key the year value with
`reverse=True`, i.e. descending; secondary key relevance weight descending;
remaining ties by descending docid. -/
def yearLe (q : XQuery) (a b : XDoc) : Bool :=
  if a.year != b.year then valLt b.year a.year
  else if q.weight a != q.weight b then q.weight b < q.weight a
  else b.docid ≤ a.docid

/-- Errors `Database._search` can raise. -/
inductive SearchErr where
  | valueError (msg : String)
  | querySyntaxError (msg : String)
deriving Repr, DecidableEq

/-- `Database._search(query_string, sort, limit)` (database.py lines
284-317), with the query parser passed in as `qp` (the Xapian QueryParser is
external state configured at open time).  Mirrors the source exactly: the
`sort` argument is validated first and anything but `'relevance'`/`'year'`
raises `ValueError` before the query string is looked at; the string `"*"`
short-circuits parsing to `Query.MatchAll`; `get_mset(0, limit)` is taken
when `limit` is truthy (Python: not `None` and not `0`), else
`get_mset(0, get_doccount())`. -/
def sortComparator (sort : String) :
    Except SearchErr (XQuery → XDoc → XDoc → Bool) :=
  if sort == "relevance" then .ok relevanceLe
  else if sort == "year" then .ok yearLe
  else .error (.valueError "sort parameter accepts only 'relevance' or 'year'")

/-- The query object `_search` evaluates: `"*"` short-circuits parsing to
`Query.MatchAll`, anything else goes through the parser (database.py lines
295-299). -/
def parsedQuery (qp : String → Except String XQuery) (query_string : String) :
    Except SearchErr XQuery :=
  if query_string == "*" then .ok XQuery.matchAll
  else match qp query_string with
    | .ok q => .ok q
    | .error e => .error (.querySyntaxError e)

def search (db : XStore) (qp : String → Except String XQuery)
    (query_string : String) (sort : String) (limit : Option Nat) :
    Except SearchErr (List XDoc) :=
  match sortComparator sort with
  | .error e => .error e
  | .ok le =>
    match parsedQuery qp query_string with
    | .error e => .error e
    | .ok query =>
      let ranked := (db.docs.filter query.sats).mergeSort (le query)
      match limit with
      | some n =>
        if n != 0 then .ok (ranked.take n) else .ok (ranked.take db.doccount)
      | none => .ok (ranked.take db.doccount)

/-- `Database.count(query_string)` (database.py lines 330-332):
`self._search(query_string).get_matches_estimated()`.  `_search` is called
with its defaults (`sort='relevance'`, `limit=None`), so the mset spans the
whole database and Xapian's estimate is exact: the size of the match set. -/
def count (db : XStore) (qp : String → Except String XQuery)
    (query_string : String) : Except SearchErr Nat :=
  (search db qp query_string "relevance" none).map List.length

/-! ## Opening the database (writer lock) -/

/-- Exceptions the Xapian backend can raise on open. -/
inductive XapianErr where
  | databaseLockError
deriving Repr, DecidableEq

/-- Errors `Database.__init__` raises. -/
inductive OpenErr where
  | databaseLockError (msg : String)
deriving Repr, DecidableEq

/-- A database handle as produced by `Database.__init__`. -/
structure Handle where
  writable : Bool
deriving Repr, DecidableEq

/-- `xapian.WritableDatabase(path, DB_CREATE_OR_OPEN)`: Xapian's documented
single-writer contract (spec section 4.6/5) — when another writer already
holds the store's advisory lock the open fails fast with
`DatabaseLockError`; it never blocks and never returns a handle. -/
def xapianOpenWritable (lockHeld : Bool) : Except XapianErr Handle :=
  if lockHeld then .error .databaseLockError else .ok ⟨true⟩

/-- The open logic of `Database.__init__` (database.py lines 147-153): a
writable open goes through `xapian.WritableDatabase` and translates
`xapian.DatabaseLockError` into the engine's `DatabaseLockError("Xapers
database locked.")`; a read-only open never touches the lock. -/
def databaseOpen (lockHeld writable : Bool) : Except OpenErr Handle :=
  if writable then
    match xapianOpenWritable lockHeld with
    | .error .databaseLockError => .error (.databaseLockError "Xapers database locked.")
    | .ok h => .ok h
  else .ok ⟨false⟩

/-! ## `Database.find_similar` (database.py lines 334-366)

`find_similar` turns the raw text into a term list with the Xapian
TermGenerator (external; the resulting term list is the model's input),
builds an `OP_ELITE_SET` query over up to `ELITE_TERM_COUNT` of those terms,
evaluates it under `CoordWeight`, and yields `(document, weight / 42)` pairs
while the normalized score strictly exceeds `THRESHOLD`, breaking at the
first score at or below it. -/

/-- `ELITE_TERM_COUNT` (database.py line 349). -/
def ELITE_TERM_COUNT : Nat := 42

/-- `THRESHOLD` (database.py line 352).  The source compares Python floats
`weight / 42 > 0.9`; CoordWeight weights are integers in `0..42`, where the
float comparison coincides with the exact rational one, so the threshold is
embedded as the rational `9/10`. -/
def THRESHOLD : ℚ := 9 / 10

/-- Modelled from the spec: the elite subset `OP_ELITE_SET` selects — "the
top 42 terms by local weight" — lives inside Xapian; which distinct terms are
picked does not matter to the claims (only that they are at most
`ELITE_TERM_COUNT` distinct terms drawn from the generated term list, and
exactly 42 when at least 42 distinct terms are available), so the model
takes the first 42 distinct terms. -/
def eliteSet (termList : List String) : List String :=
  termList.dedup.take ELITE_TERM_COUNT

/-- `xapian.CoordWeight()`: the weight of a matching document is the number
of query terms it matches (coordinate-match weighting, spec glossary). -/
def coordWeight (elite : List String) (d : XDoc) : Nat :=
  elite.countP (fun t => d.terms.contains t)

/-- The normalized score `match.weight / ELITE_TERM_COUNT` (database.py line
362). -/
def similarScore (elite : List String) (d : XDoc) : ℚ :=
  (coordWeight elite d : ℚ) / (ELITE_TERM_COUNT : ℚ)

/-- Match-set order for `find_similar`'s Enquire: weight descending; this
Enquire never calls `set_docid_order`, so equal weights fall back to Xapian's
default ascending docid order. -/
def similarLe (elite : List String) (a b : XDoc) : Bool :=
  if coordWeight elite a != coordWeight elite b
  then coordWeight elite b < coordWeight elite a
  else a.docid ≤ b.docid

/-- The mset `enquire.get_mset(0, self.xapian.get_doccount())` of the elite
set query: the `OP_ELITE_SET` query matches the documents containing at
least one elite term, ranked by `CoordWeight`. -/
def similarMset (db : XStore) (termList : List String) : List XDoc :=
  ((db.docs.filter (fun d => 0 < coordWeight (eliteSet termList) d)).mergeSort
    (similarLe (eliteSet termList))).take db.doccount

/-- The generator loop of `find_similar` (database.py lines 361-366): for
each match in mset order, `score = match.weight / ELITE_TERM_COUNT`; yield
`(document, score)` while `score > THRESHOLD`, `break` otherwise. -/
def similarLoop (elite : List String) : List XDoc → List (Nat × ℚ)
  | [] => []
  | d :: rest =>
    if THRESHOLD < similarScore elite d
    then (d.docid, similarScore elite d) :: similarLoop elite rest
    else []

/-- `Database.find_similar`, with the TermGenerator output supplied as
`termList` (documents are reported by docid). -/
def find_similar (db : XStore) (termList : List String) : List (Nat × ℚ) :=
  similarLoop (eliteSet termList) (similarMset db termList)

/-- Single-document store whose document was indexed from the two-word text
"hello world": the candidate term list has fewer than 42 distinct terms. -/
def dbC7 : XStore := ⟨[⟨1, ["hello", "world"], none⟩], 1⟩

/-! ## `Database.restore` (database.py lines 397-449)

`restore` lists the root directory, sorts the names with Python's
`list.sort()` (ascending lexicographic comparison of strings by code point),
and for each entry: skips non-directories, skips names `int()` rejects,
skips directories with no files, and otherwise re-indexes the directory's
artifact files into the record for that docid and syncs it.  The
Document/Indexer operations (`add_bibtex`, `add_tags`, `add_file`, `sync`)
live in `documents.py`, which is not among the sources. -/

/-- A directory entry of `os.listdir(self.root)`: its name, whether it is a
directory, and the artifact files inside it. -/
structure DirEntry where
  name : String
  isDir : Bool
  files : List String
deriving Repr, DecidableEq

/-- Strict lexicographic comparison of character lists by code point — the
order Python's `str` comparison and hence `list.sort()` uses. -/
def charsLt : List Char → List Char → Bool
  | [], [] => false
  | [], _ :: _ => true
  | _ :: _, [] => false
  | a :: as, b :: bs =>
    if a < b then true else if b < a then false else charsLt as bs

/-- `docdirs.sort()` comparison: entry `a` may precede entry `b` when
`b.name` is not strictly below `a.name`. -/
def nameLe (a b : DirEntry) : Bool :=
  !(charsLt b.name.data a.name.data)

/-- ASCII whitespace `int()` strips (Python also strips a few more Unicode
spaces; directory names in scope are ASCII). -/
def pyWs (c : Char) : Bool :=
  c == ' ' || c == '\t' || c == '\n' || c == '\r' ||
    c == '\x0b' || c == '\x0c'

def isPyDigit (c : Char) : Bool := '0' ≤ c && c ≤ '9'

def digitVal (c : Char) : Nat := c.toNat - '0'.toNat

/-- Digits after the first one: Python 3 allows single underscores between
digits. -/
def pyDigitsRest (acc : Nat) : List Char → Option Nat
  | [] => some acc
  | '_' :: c :: cs =>
    if isPyDigit c then pyDigitsRest (acc * 10 + digitVal c) cs else none
  | c :: cs =>
    if isPyDigit c then pyDigitsRest (acc * 10 + digitVal c) cs else none

def pyDigits : List Char → Option Nat
  | [] => none
  | c :: cs => if isPyDigit c then pyDigitsRest (digitVal c) cs else none

/-- Python `int(s)` on the strings restore can see: optional surrounding
whitespace, an optional sign, then a nonempty underscore-separated digit
run; `none` models the `ValueError` restore catches to skip the entry. -/
def pyInt? (s : String) : Option Int :=
  let cs := ((s.data.dropWhile pyWs).reverse.dropWhile pyWs).reverse
  match cs with
  | '+' :: rest => (pyDigits rest).map (fun n => (n : Int))
  | '-' :: rest => (pyDigits rest).map (fun n => -(n : Int))
  | rest => (pyDigits rest).map (fun n => (n : Int))

/-- The records restore writes, keyed by docid.  Modelled from the spec: the
Document rebuild itself happens in `documents.py` (not among the sources);
per spec section 4.7 each directory's artifacts are re-parsed and written
with `upsert`, overriding any existing record for that docid, so a record is
abstracted to the artifact file list the pass indexed for it. -/
structure RestoreDB where
  records : List (Int × List String)
deriving Repr, DecidableEq

/-- Look up the record for a docid. -/
def RestoreDB.get (db : RestoreDB) (docid : Int) : Option (List String) :=
  (db.records.find? (fun r => r.1 == docid)).map Prod.snd

/-- `upsert`: atomic full replace, creating the record if absent (spec
section 4.6). -/
def RestoreDB.upsert (db : RestoreDB) (docid : Int) (rec : List String) :
    RestoreDB :=
  ⟨(docid, rec) :: db.records.filter (fun r => r.1 != docid)⟩

/-- One iteration of restore's directory loop, threading the store and the
trace of (docid, files) actually re-indexed and upserted: skip
non-directories (line 407), skip names `int()` rejects (lines 412-415), skip
directories with zero files (lines 420-423), otherwise rebuild from the
artifact files and sync (lines 425-449). -/
def restoreStep (st : RestoreDB × List (Int × List String)) (e : DirEntry) :
    RestoreDB × List (Int × List String) :=
  if !e.isDir then st
  else match pyInt? e.name with
    | none => st
    | some docid =>
      if e.files.isEmpty then st
      else (st.1.upsert docid e.files, st.2 ++ [(docid, e.files)])

/-- `Database.restore`: sort the listing, then run the loop, returning the
final store and the ordered trace of performed upserts. -/
def restoreRun (db : RestoreDB) (fs : List DirEntry) :
    RestoreDB × List (Int × List String) :=
  (fs.mergeSort nameLe).foldl restoreStep (db, [])

/-- The store `Database.restore` leaves behind. -/
def restore (db : RestoreDB) (fs : List DirEntry) : RestoreDB :=
  (restoreRun db fs).1

/-- What a single directory entry contributes: `none` when restore skips it
(not a directory, non-numeric name, or no files), otherwise the upsert it
performs. -/
def entryUpsert (e : DirEntry) : Option (Int × List String) :=
  if !e.isDir then none
  else match pyInt? e.name with
    | none => none
    | some docid =>
      if e.files.isEmpty then none else some (docid, e.files)

/-- Root listing with two non-empty docid directories named "10" and "2":
lexicographic name order puts "10" first, numeric order would put 2
first. -/
def fsC5 : List DirEntry := [⟨"10", true, ["a"]⟩, ⟨"2", true, ["b"]⟩]

/-! ## The CLI query argument (`__main__.py`) -/

/-- `QueryAction.__call__` (`__main__.py` lines 73-78): the CLI joins the
query words with spaces and maps the literal query string `"+"` to `"*"`
before it ever reaches `Database.search`. -/
def queryActionString (values : List String) : String :=
  let query_string := " ".intercalate values
  if query_string == "+" then "*" else query_string

/-! ## Semantic orderings for the amended sort claim -/

/-- Numeric encoding of a facet-slot value that realises Xapian's string
order on stored values: the missing value (empty string) below every stored
year. -/
def encYear : Option Nat → Nat
  | none => 0
  | some n => n + 1

/-- `a` strictly precedes `b` in the `'year'` sort mode actually implemented:
year value descending (missing years last), then relevance weight descending,
then docid descending. -/
def strictBeforeYear (q : XQuery) (a b : XDoc) : Prop :=
  valLt b.year a.year = true ∨
  (a.year = b.year ∧ q.weight b < q.weight a) ∨
  (a.year = b.year ∧ q.weight a = q.weight b ∧ b.docid < a.docid)

/-- `a` strictly precedes `b` in the `'relevance'` sort mode: relevance
weight descending, then year value descending, then docid descending. -/
def strictBeforeRelevance (q : XQuery) (a b : XDoc) : Prop :=
  q.weight b < q.weight a ∨
  (q.weight a = q.weight b ∧ valLt b.year a.year = true) ∨
  (q.weight a = q.weight b ∧ a.year = b.year ∧ b.docid < a.docid)

/-- Store for the sort-mode example of the spec: two documents with equal
relevance (a match-all query is weight-neutral), docid 1 of year 2001 and
docid 2 of year 2010. -/
def dbC3 : XStore := ⟨[⟨1, [], some 2001⟩, ⟨2, [], some 2010⟩], 2⟩

end Xapers

namespace Xapers

/-! ## Claim theorems -/

/-- `mergeSort` on a two-element list, evaluated. -/
theorem mergeSort_pair {α : Type} (le : α → α → Bool) (a b : α) :
    List.mergeSort [a, b] le = if le a b then [a, b] else [b, a] := by
  rw [List.mergeSort]
  simp [List.splitInTwo, List.splitAt, List.splitAt.go, List.merge]

theorem encYear_inj (x y : Option Nat) : encYear x = encYear y ↔ x = y := by
  cases x <;> cases y <;> simp [encYear]

theorem valLt_iff_enc (x y : Option Nat) :
    valLt x y = true ↔ encYear x < encYear y := by
  cases x <;> cases y <;> simp [valLt, encYear]

theorem yearLe_iff (q : XQuery) (a b : XDoc) : yearLe q a b = true ↔
    (encYear a.year ≠ encYear b.year ∧ encYear b.year < encYear a.year) ∨
    (encYear a.year = encYear b.year ∧ q.weight a ≠ q.weight b ∧
      q.weight b < q.weight a) ∨
    (encYear a.year = encYear b.year ∧ q.weight a = q.weight b ∧
      b.docid ≤ a.docid) := by
  unfold yearLe
  by_cases hy : a.year = b.year <;> by_cases hw : q.weight a = q.weight b <;>
    simp [hy, hw, bne_iff_ne, valLt_iff_enc, encYear_inj, Ne.symm]

theorem relevanceLe_iff (q : XQuery) (a b : XDoc) : relevanceLe q a b = true ↔
    (q.weight a ≠ q.weight b ∧ q.weight b < q.weight a) ∨
    (q.weight a = q.weight b ∧ encYear a.year ≠ encYear b.year ∧
      encYear b.year < encYear a.year) ∨
    (q.weight a = q.weight b ∧ encYear a.year = encYear b.year ∧
      b.docid ≤ a.docid) := by
  unfold relevanceLe
  by_cases hw : q.weight a = q.weight b <;> by_cases hy : a.year = b.year <;>
    simp [hy, hw, bne_iff_ne, valLt_iff_enc, encYear_inj, Ne.symm]

theorem yearLe_total (q : XQuery) (a b : XDoc) :
    yearLe q a b || yearLe q b a := by
  rw [Bool.or_eq_true, yearLe_iff, yearLe_iff]
  omega

theorem yearLe_trans (q : XQuery) (a b c : XDoc) (h1 : yearLe q a b)
    (h2 : yearLe q b c) : yearLe q a c := by
  rw [yearLe_iff] at h1 h2 ⊢
  omega

theorem relevanceLe_total (q : XQuery) (a b : XDoc) :
    relevanceLe q a b || relevanceLe q b a := by
  rw [Bool.or_eq_true, relevanceLe_iff, relevanceLe_iff]
  omega

theorem relevanceLe_trans (q : XQuery) (a b c : XDoc) (h1 : relevanceLe q a b)
    (h2 : relevanceLe q b c) : relevanceLe q a c := by
  rw [relevanceLe_iff] at h1 h2 ⊢
  omega

/-- The ranked, truncated match set produced by `_search` is pairwise ordered
by the active comparator and pairwise distinct in docid. -/
theorem pairwise_search_ranked (db : XStore) (q : XQuery) (le : XDoc → XDoc → Bool)
    (htrans : ∀ a b c, le a b → le b c → le a c)
    (htotal : ∀ a b, le a b || le b a)
    (hnd : db.docs.Pairwise (fun a b => a.docid ≠ b.docid)) (n : Nat) :
    (((db.docs.filter q.sats).mergeSort le).take n).Pairwise
      (fun a b => le a b = true ∧ a.docid ≠ b.docid) := by
  have hsorted := List.sorted_mergeSort htrans htotal (db.docs.filter q.sats)
  have hndf : (db.docs.filter q.sats).Pairwise (fun a b => a.docid ≠ b.docid) :=
    List.Pairwise.sublist (List.filter_sublist _) hnd
  have hperm := List.mergeSort_perm (db.docs.filter q.sats) le
  have hndm : ((db.docs.filter q.sats).mergeSort le).Pairwise
      (fun a b => a.docid ≠ b.docid) :=
    (List.Perm.pairwise_iff (fun h => h.symm) hperm).mpr hndf
  exact List.Pairwise.sublist (List.take_sublist n _) (hsorted.and hndm)

/-- C6: the query string `"*"` short-circuits parsing inside `_search`
itself, and the CLI's `QueryAction` maps the query string `"+"` to `"*"`
before it reaches the engine; either way the evaluated query matches every
document in the store, independently of the query parser. -/
theorem c6_star_plus_match_all (db : XStore) (sort qs : String)
    (hs : sort = "relevance" ∨ sort = "year") (hqs : qs = "*" ∨ qs = "+") :
    queryActionString [qs] = "*" ∧
    ∃ res, (∀ qp, search db qp (queryActionString [qs]) sort none = .ok res) ∧
      res.Perm db.docs := by
  have hq : queryActionString [qs] = "*" := by
    rcases hqs with h | h <;> subst h <;> rfl
  refine ⟨hq, ?_⟩
  rw [hq]
  obtain ⟨le, hle⟩ : ∃ le, sortComparator sort = .ok le := by
    rcases hs with h | h <;> subst h <;> exact ⟨_, rfl⟩
  have hfilter : db.docs.filter XQuery.matchAll.sats = db.docs :=
    List.filter_true db.docs
  refine ⟨(db.docs.filter XQuery.matchAll.sats).mergeSort (le XQuery.matchAll),
    ?_, ?_⟩
  · intro qp
    unfold search
    rw [hle, show parsedQuery qp "*" = .ok XQuery.matchAll from rfl]
    have hlen : ((db.docs.filter XQuery.matchAll.sats).mergeSort
        (le XQuery.matchAll)).length ≤ db.doccount := by
      rw [List.length_mergeSort, hfilter]
      exact Nat.le_refl _
    show Except.ok (((db.docs.filter XQuery.matchAll.sats).mergeSort
      (le XQuery.matchAll)).take db.doccount) = _
    rw [List.take_of_length_le hlen]
  · refine (List.mergeSort_perm _ _).trans ?_
    rw [hfilter]

/-- C6 witness: instantiated on a concrete two-document store with the CLI
query `"+"` and sort mode `"relevance"`. -/
theorem c6_star_plus_match_all_witness :
    queryActionString ["+"] = "*" ∧
    ∃ res, (∀ qp, search ⟨[⟨1, ["a"], none⟩, ⟨2, ["b"], some 1999⟩], 2⟩ qp
        (queryActionString ["+"]) "relevance" none = .ok res) ∧
      res.Perm [⟨1, ["a"], none⟩, ⟨2, ["b"], some 1999⟩] :=
  c6_star_plus_match_all ⟨[⟨1, ["a"], none⟩, ⟨2, ["b"], some 1999⟩], 2⟩
    "relevance" "+" (Or.inl rfl) (Or.inr rfl)

/-- C3 counterexample: on a store holding docid 1 with year 2001 and docid 2
with year 2010, the match-all query (equal relevance weights) under sort mode
`'year'` returns docid 2 (year 2010) first — the claimed ascending-year order
`[1, 2]` is not what the code produces, because
`set_sort_by_value_then_relevance(0, True)` passes `reverse=True`, i.e.
descending. -/
theorem c3_year_sort_counterexample :
    (search dbC3 (fun s => .error s) "*" "year" none).map
      (fun l => l.map XDoc.docid) = .ok [2, 1] ∧
    ([2, 1] : List Nat) ≠ [1, 2] := by
  refine ⟨?_, by decide⟩
  have h : search dbC3 (fun s => .error s) "*" "year" none =
      .ok ((List.mergeSort [⟨1, [], some 2001⟩, ⟨2, [], some 2010⟩]
        (yearLe XQuery.matchAll)).take 2) := rfl
  rw [h, mergeSort_pair]
  rfl

/-- A successful `_search` always returns a prefix (`take`) of the match set
ranked by the comparator the sort mode selects. -/
theorem search_ok_take (db : XStore) (qp : String → Except String XQuery)
    (query_string sort : String) (limit : Option Nat) (q : XQuery)
    (le : XQuery → XDoc → XDoc → Bool)
    (hle : sortComparator sort = .ok le)
    (hq : parsedQuery qp query_string = .ok q)
    (res : List XDoc) (hres : search db qp query_string sort limit = .ok res) :
    ∃ m, res = ((db.docs.filter q.sats).mergeSort (le q)).take m := by
  unfold search at hres
  rw [hle, hq] at hres
  cases limit with
  | none =>
    have hres' : Except.ok (((db.docs.filter q.sats).mergeSort (le q)).take
        db.doccount) = Except.ok res := hres
    exact ⟨db.doccount, by injection hres' with h; exact h.symm⟩
  | some n =>
    have hres' : (if (n != 0) = true then
        Except.ok (((db.docs.filter q.sats).mergeSort (le q)).take n)
      else
        Except.ok (((db.docs.filter q.sats).mergeSort (le q)).take
          db.doccount)) = Except.ok res := hres
    by_cases hn : (n != 0) = true
    · rw [if_pos hn] at hres'
      exact ⟨n, by injection hres' with h; exact h.symm⟩
    · rw [if_neg hn] at hres'
      exact ⟨db.doccount, by injection hres' with h; exact h.symm⟩

/-- C3 amended: for every query evaluated with sort mode `'year'`, results
are ordered with primary key the year facet *descending* (documents without
a year last) and secondary key the relevance weight descending; and in both
sort modes, results with equal primary and secondary keys are ordered by
descending docid. -/
theorem c3_year_sort_amended (db : XStore) (qp : String → Except String XQuery)
    (query_string : String) (limit : Option Nat) (q : XQuery)
    (hq : parsedQuery qp query_string = .ok q)
    (hnd : db.docs.Pairwise (fun a b => a.docid ≠ b.docid)) :
    (∀ res, search db qp query_string "year" limit = .ok res →
      res.Pairwise (strictBeforeYear q)) ∧
    (∀ res, search db qp query_string "relevance" limit = .ok res →
      res.Pairwise (strictBeforeRelevance q)) := by
  constructor
  · intro res hres
    obtain ⟨m, hm⟩ := search_ok_take db qp query_string "year" limit q yearLe
      rfl hq res hres
    subst hm
    refine (pairwise_search_ranked db q (yearLe q) (yearLe_trans q)
      (yearLe_total q) hnd m).imp ?_
    rintro a b ⟨hle2, hne⟩
    rw [yearLe_iff] at hle2
    unfold strictBeforeYear
    rw [← encYear_inj, valLt_iff_enc]
    omega
  · intro res hres
    obtain ⟨m, hm⟩ := search_ok_take db qp query_string "relevance" limit q
      relevanceLe rfl hq res hres
    subst hm
    refine (pairwise_search_ranked db q (relevanceLe q) (relevanceLe_trans q)
      (relevanceLe_total q) hnd m).imp ?_
    rintro a b ⟨hle2, hne⟩
    rw [relevanceLe_iff] at hle2
    unfold strictBeforeRelevance
    rw [← encYear_inj, valLt_iff_enc]
    omega

theorem similarLe_iff (elite : List String) (a b : XDoc) :
    similarLe elite a b = true ↔
    (coordWeight elite a ≠ coordWeight elite b ∧
      coordWeight elite b < coordWeight elite a) ∨
    (coordWeight elite a = coordWeight elite b ∧ a.docid ≤ b.docid) := by
  unfold similarLe
  by_cases h : coordWeight elite a = coordWeight elite b <;>
    simp [h, bne_iff_ne, Ne.symm]

theorem similarLe_total (elite : List String) (a b : XDoc) :
    similarLe elite a b || similarLe elite b a := by
  rw [Bool.or_eq_true, similarLe_iff, similarLe_iff]
  omega

theorem similarLe_trans (elite : List String) (a b c : XDoc)
    (h1 : similarLe elite a b) (h2 : similarLe elite b c) :
    similarLe elite a c := by
  rw [similarLe_iff] at h1 h2 ⊢
  omega

/-- The yield/break loop of `find_similar` emits exactly the longest prefix
of the mset whose scores strictly exceed the threshold. -/
theorem similarLoop_eq_takeWhile (elite : List String) (l : List XDoc) :
    similarLoop elite l =
      (l.takeWhile (fun d => decide (THRESHOLD < similarScore elite d))).map
        (fun d => (d.docid, similarScore elite d)) := by
  induction l with
  | nil => rfl
  | cons d rest ih =>
    unfold similarLoop
    rw [List.takeWhile_cons]
    by_cases h : THRESHOLD < similarScore elite d
    · simp [h, ih]
    · simp [h]

/-- Scores never increase along the comparator of the `find_similar` mset. -/
theorem similarLe_score_mono (elite : List String) (a b : XDoc)
    (h : similarLe elite a b = true) :
    similarScore elite b ≤ similarScore elite a := by
  rw [similarLe_iff] at h
  have hw : coordWeight elite b ≤ coordWeight elite a := by omega
  unfold similarScore
  gcongr

/-- C1: `find_similar` normalizes each emitted match's weight by dividing by
42, emits only matches whose normalized score strictly exceeds the 0.9
threshold, emits them in descending-score order, and the emitted sequence is
exactly the longest prefix of the descending-ranked match set above the
threshold — the loop breaks for good at the first score at or below it. -/
theorem c1_find_similar_threshold (db : XStore) (termList : List String) :
    (∀ p ∈ find_similar db termList, (9 : ℚ) / 10 < p.2) ∧
    ((find_similar db termList).map Prod.snd).Pairwise (· ≥ ·) ∧
    (∀ p ∈ find_similar db termList, ∃ d ∈ similarMset db termList,
      p = (d.docid, (coordWeight (eliteSet termList) d : ℚ) / 42)) ∧
    find_similar db termList =
      ((similarMset db termList).takeWhile
        (fun d => decide (THRESHOLD < similarScore (eliteSet termList) d))).map
        (fun d => (d.docid, similarScore (eliteSet termList) d)) := by
  have hloop := similarLoop_eq_takeWhile (eliteSet termList)
    (similarMset db termList)
  have hfs : find_similar db termList =
      ((similarMset db termList).takeWhile
        (fun d => decide (THRESHOLD < similarScore (eliteSet termList) d))).map
        (fun d => (d.docid, similarScore (eliteSet termList) d)) := hloop
  refine ⟨?_, ?_, ?_, hfs⟩
  · intro p hp
    rw [hfs] at hp
    obtain ⟨d, hd, rfl⟩ := List.mem_map.mp hp
    have := List.mem_takeWhile_imp hd
    simpa [THRESHOLD] using of_decide_eq_true this
  · rw [hfs]
    rw [List.pairwise_map, List.pairwise_map]
    have hsorted : (similarMset db termList).Pairwise
        (fun a b => similarLe (eliteSet termList) a b = true) := by
      unfold similarMset
      exact List.Pairwise.sublist (List.take_sublist _ _)
        (List.sorted_mergeSort (similarLe_trans (eliteSet termList))
          (similarLe_total (eliteSet termList)) _)
    exact (List.Pairwise.sublist (List.takeWhile_sublist _) hsorted).imp
      (fun h => similarLe_score_mono _ _ _ h)
  · intro p hp
    rw [hfs] at hp
    obtain ⟨d, hd, rfl⟩ := List.mem_map.mp hp
    refine ⟨d, (List.takeWhile_sublist _).mem hd, ?_⟩
    simp [similarScore, ELITE_TERM_COUNT]

/-- If everything in a list sorted by `le` refuses to `le`-precede `d`
except `d` itself, then `d` heads the list. -/
theorem head_of_pairwise {α : Type} {le : α → α → Prop} {l : List α} {d : α}
    (hs : l.Pairwise le) (hd : d ∈ l) (hmin : ∀ x ∈ l, x ≠ d → ¬ le x d) :
    l.head? = some d := by
  cases l with
  | nil => cases hd
  | cons a t =>
    by_cases had : a = d
    · simp [had]
    · exfalso
      have hdt : d ∈ t := by
        rcases hd with _ | h
        · exact absurd rfl had
        · assumption
      exact hmin a (List.mem_cons_self a t) had
        ((List.pairwise_cons.mp hs).1 d hdt)

/-- C7 counterexample: docid 1 was indexed from the exact text
"hello world"; `find_similar` on that same text generates only 2 candidate
terms, so the elite set has 2 terms, the document's normalized score is
2/42 ≈ 0.048 ≤ 0.9, and the loop emits nothing at all — the document is not
returned first with score 1.0. -/
theorem c7_find_similar_self_counterexample :
    find_similar dbC7 ["hello", "world"] = [] ∧
    (find_similar dbC7 ["hello", "world"]).head? ≠ some (1, 1) := by
  have h1 : similarMset dbC7 ["hello", "world"] =
      (List.mergeSort [⟨1, ["hello", "world"], none⟩]
        (similarLe (eliteSet ["hello", "world"]))).take 1 := rfl
  rw [List.mergeSort_singleton] at h1
  have h2 : similarMset dbC7 ["hello", "world"] =
      [⟨1, ["hello", "world"], none⟩] :=
    h1.trans (show List.take 1 [(⟨1, ["hello", "world"], none⟩ : XDoc)] =
      [⟨1, ["hello", "world"], none⟩] from rfl)
  have hcw : coordWeight (eliteSet ["hello", "world"])
      ⟨1, ["hello", "world"], none⟩ = 2 := by decide
  have hscore : similarScore (eliteSet ["hello", "world"])
      ⟨1, ["hello", "world"], none⟩ = 2 / 42 := by
    unfold similarScore
    rw [hcw]
    norm_num [ELITE_TERM_COUNT]
  have h3 : find_similar dbC7 ["hello", "world"] = [] := by
    unfold find_similar
    rw [h2]
    unfold similarLoop
    rw [if_neg]
    rw [hscore]
    norm_num [THRESHOLD]
  exact ⟨h3, by rw [h3]; decide⟩

/-- C7 amended: if the extracted text of an indexed document yields at least
42 distinct terms (so the elite set is full) and the document contains every
elite term — as it does when it was indexed from that exact text — then
`find_similar` on that text returns it with normalized score exactly 1.0,
ranked first provided every other document either misses some elite term or
has a larger docid (equal full-score documents tie and are ordered by
ascending docid, so a smaller-docid full matcher would come first). -/
theorem c7_find_similar_self_amended (db : XStore) (d : XDoc)
    (termList : List String) (hmem : d ∈ db.docs)
    (hsub : ∀ t ∈ eliteSet termList, t ∈ d.terms)
    (hlen : ELITE_TERM_COUNT ≤ termList.dedup.length)
    (hfirst : ∀ x ∈ db.docs, x ≠ d →
      (∃ t ∈ eliteSet termList, t ∉ x.terms) ∨ d.docid < x.docid) :
    (find_similar db termList).head? = some (d.docid, 1) := by
  set elite := eliteSet termList with helite_def
  have helite : elite.length = ELITE_TERM_COUNT := by
    rw [helite_def]
    unfold eliteSet
    rw [List.length_take]
    omega
  have hwd : coordWeight elite d = ELITE_TERM_COUNT := by
    unfold coordWeight
    rw [← helite]
    rw [List.countP_eq_length]
    intro t ht
    exact List.elem_iff.mpr (hsub t ht)
  have hwle : ∀ x : XDoc, coordWeight elite x ≤ ELITE_TERM_COUNT := by
    intro x
    rw [← helite]
    exact List.countP_le_length _
  have hmset_eq : similarMset db termList =
      (db.docs.filter (fun x => 0 < coordWeight elite x)).mergeSort
        (similarLe elite) := by
    unfold similarMset
    rw [← helite_def]
    refine List.take_of_length_le ?_
    rw [List.length_mergeSort]
    exact le_trans (List.length_filter_le _ _) (Nat.le_refl _)
  have hdmem : d ∈ similarMset db termList := by
    rw [hmset_eq, List.mem_mergeSort, List.mem_filter]
    refine ⟨hmem, ?_⟩
    simp [hwd, ELITE_TERM_COUNT]
  have hsorted : (similarMset db termList).Pairwise
      (fun a b => similarLe elite a b = true) := by
    rw [hmset_eq]
    exact List.sorted_mergeSort (similarLe_trans elite) (similarLe_total elite) _
  have hmin : ∀ x ∈ similarMset db termList, x ≠ d →
      ¬ similarLe elite x d = true := by
    intro x hx hxd
    have hxdocs : x ∈ db.docs := by
      rw [hmset_eq, List.mem_mergeSort, List.mem_filter] at hx
      exact hx.1
    rw [similarLe_iff]
    rcases hfirst x hxdocs hxd with ⟨t, ht, htx⟩ | hdid
    · have hwx : coordWeight elite x < ELITE_TERM_COUNT := by
        have hle := hwle x
        rcases Nat.lt_or_ge (coordWeight elite x) ELITE_TERM_COUNT with h | h
        · exact h
        · exfalso
          have heq : coordWeight elite x = ELITE_TERM_COUNT := le_antisymm hle h
          unfold coordWeight at heq
          rw [← helite, List.countP_eq_length] at heq
          exact htx (List.elem_iff.mp (heq t ht))
      rw [hwd]
      omega
    · have hle := hwle x
      rw [hwd]
      omega
  have hhead : (similarMset db termList).head? = some d :=
    head_of_pairwise hsorted hdmem hmin
  obtain ⟨tl, htl⟩ : ∃ tl, similarMset db termList = d :: tl := by
    cases hms : similarMset db termList with
    | nil => rw [hms] at hhead; cases hhead
    | cons a t =>
      rw [hms] at hhead
      injection hhead with h
      exact ⟨t, by rw [h]⟩
  have hscore : similarScore elite d = 1 := by
    unfold similarScore
    rw [hwd]
    norm_num [ELITE_TERM_COUNT]
  unfold find_similar
  rw [← helite_def, htl]
  unfold similarLoop
  rw [hscore]
  norm_num [THRESHOLD]

/-- C7 witness: a store with a single document indexed from a text yielding
exactly 42 distinct terms; `find_similar` on those terms heads its output
with that document at score 1. -/
theorem c7_find_similar_self_amended_witness :
    (find_similar
      ⟨[⟨1, (List.range 42).map (fun i => String.mk [Char.ofNat (65 + i)]),
        none⟩], 1⟩
      ((List.range 42).map (fun i => String.mk [Char.ofNat (65 + i)]))).head? =
      some (1, 1) :=
  c7_find_similar_self_amended
    ⟨[⟨1, (List.range 42).map (fun i => String.mk [Char.ofNat (65 + i)]),
      none⟩], 1⟩
    ⟨1, (List.range 42).map (fun i => String.mk [Char.ofNat (65 + i)]), none⟩
    ((List.range 42).map (fun i => String.mk [Char.ofNat (65 + i)]))
    (by decide) (by decide) (by decide) (by decide)

/-- C3 witness: the amended ordering instantiated on the two-document store
with years 2001 and 2010 under the match-all query. -/
theorem c3_year_sort_amended_witness :
    (∀ res, search dbC3 (fun s => .error s) "*" "year" none = .ok res →
      res.Pairwise (strictBeforeYear XQuery.matchAll)) ∧
    (∀ res, search dbC3 (fun s => .error s) "*" "relevance" none = .ok res →
      res.Pairwise (strictBeforeRelevance XQuery.matchAll)) :=
  c3_year_sort_amended dbC3 (fun s => .error s) "*" none XQuery.matchAll rfl
    (by decide)

/-- C4: `generate_docid` always returns the last-allocated docid plus one,
deleting a document never changes it (ids are never reused), and concretely
after documents 1, 2, 3 exist and document 3 is deleted it still returns
4. -/
theorem c4_generate_docid_never_reused (db : XStore) (d : Nat) :
    generate_docid db = db.getLastdocid + 1 ∧
    generate_docid (db.deleteDocument d) = generate_docid db ∧
    (let db3 := (((⟨[], 0⟩ : XStore).replaceDocument 1 ⟨1, [], none⟩).replaceDocument 2
        ⟨2, [], none⟩).replaceDocument 3 ⟨3, [], none⟩
     generate_docid (db3.deleteDocument 3) = 4) := by
  refine ⟨rfl, rfl, ?_⟩
  decide

/-- C8: while a writer holds the store's lock, opening a second writer fails
with `DatabaseLockError` ("Xapers database locked.") instead of succeeding,
and a writable open succeeds exactly when the lock is free. -/
theorem c8_second_writer_lock_error :
    databaseOpen true true = .error (.databaseLockError "Xapers database locked.") ∧
    (∀ h, databaseOpen true true ≠ .ok h) ∧
    databaseOpen false true = .ok ⟨true⟩ := by
  refine ⟨rfl, ?_, rfl⟩
  intro h hcontra
  simp [databaseOpen, xapianOpenWritable] at hcontra

/-- C9: for every sort argument other than `'relevance'` or `'year'`,
`_search` (hence `Database.search`) raises `ValueError` before any query is
parsed: the outcome is the same `ValueError` for every query parser and every
query string, so the parser is never consulted, and the (pure) store is
untouched. -/
theorem c9_invalid_sort_value_error (db : XStore)
    (qp : String → Except String XQuery) (query_string sort : String)
    (limit : Option Nat) (h1 : sort ≠ "relevance") (h2 : sort ≠ "year") :
    search db qp query_string sort limit =
      .error (.valueError "sort parameter accepts only 'relevance' or 'year'") := by
  simp [search, sortComparator, h1, h2]

/-- C9 witness: instantiated at `sort = "date"` on a concrete store. -/
theorem c9_invalid_sort_value_error_witness :
    search ⟨[⟨1, ["a"], none⟩], 1⟩ (fun s => .error s) "a" "date" none =
      .error (.valueError "sort parameter accepts only 'relevance' or 'year'") :=
  c9_invalid_sort_value_error ⟨[⟨1, ["a"], none⟩], 1⟩ (fun s => .error s) "a" "date" none
    (by decide) (by decide)

/-- C2: for every store, parser and query string, `count` returns exactly the
number of entries `search` returns with `limit = 0` (Python's falsy `0` means
unlimited: up to the total document count), including the error cases. -/
theorem c2_count_eq_search_length (db : XStore)
    (qp : String → Except String XQuery) (query_string : String) :
    count db qp query_string =
      (search db qp query_string "relevance" (some 0)).map List.length := by
  unfold count search
  cases hq : parsedQuery qp query_string <;>
    simp [hq, sortComparator]

/-! ### Restore (C5, C10) -/

theorem charsLt_irrefl (x : List Char) : charsLt x x = false := by
  induction x with
  | nil => rfl
  | cons a as ih => simp [charsLt, lt_irrefl, ih]

theorem charsLt_trans {x y z : List Char} (h1 : charsLt x y = true)
    (h2 : charsLt y z = true) : charsLt x z = true := by
  induction x generalizing y z with
  | nil =>
    cases y with
    | nil => simp [charsLt] at h1
    | cons b bs =>
      cases z with
      | nil => simp [charsLt] at h2
      | cons c cs => rfl
  | cons a as ih =>
    cases y with
    | nil => simp [charsLt] at h1
    | cons b bs =>
      cases z with
      | nil => simp [charsLt] at h2
      | cons c cs =>
        unfold charsLt at h1 h2 ⊢
        by_cases hab : a < b
        · by_cases hbc : b < c
          · simp [lt_trans hab hbc]
          · by_cases hcb : c < b
            · simp [hbc, hcb] at h2
            · have hbceq : b = c := le_antisymm (not_lt.mp hcb) (not_lt.mp hbc)
              simp [hbceq ▸ hab]
        · by_cases hba : b < a
          · simp [hab, hba] at h1
          · have habeq : a = b := le_antisymm (not_lt.mp hba) (not_lt.mp hab)
            subst habeq
            simp [hab] at h1
            by_cases hbc : a < c
            · simp [hbc]
            · by_cases hcb : c < a
              · simp [hbc, hcb] at h2
              · simp [hbc, hcb] at h2 ⊢
                exact ih h1 h2

theorem charsLt_connex {x y : List Char} (h : x ≠ y) :
    charsLt x y = true ∨ charsLt y x = true := by
  induction x generalizing y with
  | nil =>
    cases y with
    | nil => exact absurd rfl h
    | cons b bs => left; rfl
  | cons a as ih =>
    cases y with
    | nil => right; rfl
    | cons b bs =>
      rcases lt_trichotomy a b with hab | hab | hab
      · left; simp [charsLt, hab]
      · subst hab
        have hne : as ≠ bs := fun he => h (by rw [he])
        rcases ih hne with h' | h'
        · left; simp [charsLt, lt_irrefl, h']
        · right; simp [charsLt, lt_irrefl, h']
      · right; simp [charsLt, hab]

theorem nameLe_total (a b : DirEntry) : nameLe a b || nameLe b a := by
  unfold nameLe
  by_cases hx : charsLt b.name.data a.name.data = true
  · by_cases hy : charsLt a.name.data b.name.data = true
    · have := charsLt_trans hx hy
      rw [charsLt_irrefl] at this
      cases this
    · simp [Bool.not_eq_true] at hy
      simp [hy]
  · simp [Bool.not_eq_true] at hx
    simp [hx]

theorem nameLe_trans (a b c : DirEntry) (h1 : nameLe a b) (h2 : nameLe b c) :
    nameLe a c := by
  unfold nameLe at *
  simp only [Bool.not_eq_true'] at h1 h2 ⊢
  by_contra hca
  rw [Bool.not_eq_false] at hca
  by_cases hcb : c.name.data = b.name.data
  · rw [hcb] at hca
    rw [hca] at h1
    cases h1
  · rcases charsLt_connex hcb with h' | h'
    · rw [h'] at h2
      cases h2
    · have := charsLt_trans h' hca
      rw [this] at h1
      cases h1

/-- The restore loop, run from any starting store and trace: the trace grows
by exactly the per-entry contributions in list order, and the final store is
the fold of those upserts. -/
theorem restore_foldl_trace (l : List DirEntry) (db : RestoreDB)
    (acc : List (Int × List String)) :
    (l.foldl restoreStep (db, acc)).2 = acc ++ l.filterMap entryUpsert ∧
    (l.foldl restoreStep (db, acc)).1 =
      (l.filterMap entryUpsert).foldl (fun d p => d.upsert p.1 p.2) db := by
  induction l generalizing db acc with
  | nil => simp
  | cons e t ih =>
    rw [List.foldl_cons, List.filterMap_cons]
    by_cases hd : e.isDir = true
    · cases hpi : pyInt? e.name with
      | none =>
        have hstep : restoreStep (db, acc) e = (db, acc) := by
          unfold restoreStep
          rw [hd, hpi]
          rfl
        have hup : entryUpsert e = none := by
          unfold entryUpsert
          rw [hd, hpi]
          rfl
        rw [hstep, hup]
        exact ih db acc
      | some n =>
        by_cases hf : e.files.isEmpty = true
        · have hstep : restoreStep (db, acc) e = (db, acc) := by
            unfold restoreStep
            rw [hd, hpi]
            simp [hf]
          have hup : entryUpsert e = none := by
            unfold entryUpsert
            rw [hd, hpi]
            simp [hf]
          rw [hstep, hup]
          exact ih db acc
        · have hstep : restoreStep (db, acc) e =
              (db.upsert n e.files, acc ++ [(n, e.files)]) := by
            unfold restoreStep
            rw [hd, hpi]
            simp [hf]
          have hup : entryUpsert e = some (n, e.files) := by
            unfold entryUpsert
            rw [hd, hpi]
            simp [hf]
          rw [hstep, hup]
          obtain ⟨ih1, ih2⟩ := ih (db.upsert n e.files) (acc ++ [(n, e.files)])
          refine ⟨?_, ?_⟩
          · rw [ih1, List.append_assoc]
            rfl
          · rw [ih2]
            rfl
    · have hd' : e.isDir = false := by
        cases he : e.isDir
        · rfl
        · exact absurd he hd
      have hstep : restoreStep (db, acc) e = (db, acc) := by
        unfold restoreStep
        rw [hd']
        rfl
      have hup : entryUpsert e = none := by
        unfold entryUpsert
        rw [hd']
        rfl
      rw [hstep, hup]
      exact ih db acc

/-- C5 counterexample: with two non-empty docid directories named "10" and
"2", restore processes docid 10 before docid 2 — `docdirs.sort()` sorts the
names as strings, so "10" precedes "2" and the processing order is not
ascending in the numeric docid. -/
theorem c5_restore_order_counterexample :
    ((restoreRun ⟨[]⟩ fsC5).2.map Prod.fst) = [10, 2] ∧
    ¬ ((restoreRun ⟨[]⟩ fsC5).2.map Prod.fst).Pairwise (· ≤ ·) := by
  have hsort : fsC5.mergeSort nameLe = fsC5 := by
    unfold fsC5
    rw [mergeSort_pair]
    rw [if_pos (by decide)]
  have hrun : restoreRun ⟨[]⟩ fsC5 = fsC5.foldl restoreStep (⟨[]⟩, []) := by
    unfold restoreRun
    rw [hsort]
  rw [hrun]
  refine ⟨by decide, by decide⟩

/-- C5 amended: restore processes the directories in ascending
*lexicographic* order of their names (which coincides with ascending numeric
docid order only when the names have equal width, e.g. zero-padded), and it
re-indexes and upserts exactly the numeric-named, non-empty directories:
non-directories, names `int()` rejects, and empty directories contribute
nothing. -/
theorem c5_restore_order_amended (db : RestoreDB) (fs : List DirEntry) :
    (fs.mergeSort nameLe).Pairwise
      (fun a b => charsLt b.name.data a.name.data = false) ∧
    (restoreRun db fs).2 = (fs.mergeSort nameLe).filterMap entryUpsert ∧
    restore db fs =
      ((fs.mergeSort nameLe).filterMap entryUpsert).foldl
        (fun d p => d.upsert p.1 p.2) db := by
  refine ⟨?_, ?_, ?_⟩
  · refine (List.sorted_mergeSort (fun a b c => nameLe_trans a b c)
      nameLe_total fs).imp ?_
    intro a b h
    unfold nameLe at h
    rwa [Bool.not_eq_true'] at h
  · have := (restore_foldl_trace (fs.mergeSort nameLe) db []).1
    simpa [restoreRun] using this
  · have := (restore_foldl_trace (fs.mergeSort nameLe) db []).2
    simpa [restore, restoreRun] using this

theorem find?_filter_ne {α : Type} (l : List (Int × α)) (m n : Int)
    (h : m ≠ n) :
    (l.filter (fun r => r.1 != m)).find? (fun r => r.1 == n) =
      l.find? (fun r => r.1 == n) := by
  induction l with
  | nil => rfl
  | cons a t ih =>
    by_cases ham : a.1 = m
    · have h1 : (a.1 != m) = false := by simp [ham]
      have h2 : (a.1 == n) = false := by simp [ham, h]
      simp [List.filter_cons, h1, List.find?_cons, h2, ih]
    · have h1 : (a.1 != m) = true := by simp [ham]
      cases hbn : (a.1 == n) with
      | false => simp [List.filter_cons, h1, List.find?_cons, hbn, ih]
      | true => simp [List.filter_cons, h1, List.find?_cons, hbn]

theorem get_upsert_ne (d : RestoreDB) (m n : Int) (fls : List String)
    (h : m ≠ n) : (d.upsert m fls).get n = d.get n := by
  unfold RestoreDB.upsert RestoreDB.get
  have hmn : (((m, fls) : Int × List String).1 == n) = false := by simp [h]
  rw [List.find?_cons, hmn, find?_filter_ne _ _ _ h]

theorem get_foldl_upsert_ne (trace : List (Int × List String))
    (db : RestoreDB) (n : Int) (h : ∀ p ∈ trace, p.1 ≠ n) :
    (trace.foldl (fun d p => d.upsert p.1 p.2) db).get n = db.get n := by
  induction trace generalizing db with
  | nil => rfl
  | cons p t ih =>
    rw [List.foldl_cons]
    rw [ih _ (fun q hq => h q (List.mem_cons_of_mem _ hq))]
    exact get_upsert_ne db p.1 n p.2 (h p (List.mem_cons_self _ _))

/-- C10: a numeric docid directory with zero files is skipped entirely — the
restore loop's state passes through it unchanged — and as long as no *other*
directory in the listing upserts that docid, the restored store's record for
it is exactly the pre-restore record (created nowhere, replaced nowhere). -/
theorem c10_restore_skips_empty_dir (db : RestoreDB) (fs : List DirEntry)
    (e : DirEntry) (he : e ∈ fs) (hdir : e.isDir = true) (n : Int)
    (hnum : pyInt? e.name = some n) (hempty : e.files = []) :
    (∀ st, restoreStep st e = st) ∧
    ((∀ e' ∈ fs, e' ≠ e → ∀ fls, entryUpsert e' ≠ some (n, fls)) →
      (restore db fs).get n = db.get n) := by
  have hskip : entryUpsert e = none := by
    unfold entryUpsert
    rw [hdir, hnum]
    simp [hempty]
  constructor
  · intro st
    unfold restoreStep
    rw [hdir, hnum]
    simp [hempty]
  · intro hothers
    have h3 := (restore_foldl_trace (fs.mergeSort nameLe) db []).2
    unfold restore restoreRun
    rw [h3]
    apply get_foldl_upsert_ne
    intro p hp
    obtain ⟨e', he', hcontrib⟩ := List.mem_filterMap.mp hp
    have he'fs : e' ∈ fs := List.mem_mergeSort.mp he'
    by_cases hee : e' = e
    · subst hee
      rw [hskip] at hcontrib
      cases hcontrib
    · intro hpn
      apply hothers e' he'fs hee p.2
      rw [hcontrib, ← hpn]

/-- C10 witness: a root with an empty directory "1" and a non-empty
directory "2"; restoring over a store that already has a record for docid 1
leaves that record untouched. -/
theorem c10_restore_skips_empty_dir_witness :
    (∀ st, restoreStep st ⟨"1", true, []⟩ = st) ∧
    ((∀ e' ∈ [(⟨"1", true, []⟩ : DirEntry), ⟨"2", true, ["x"]⟩],
        e' ≠ (⟨"1", true, []⟩ : DirEntry) → ∀ fls,
        entryUpsert e' ≠ some (1, fls)) →
      (restore ⟨[(1, ["old"])]⟩
        [⟨"1", true, []⟩, ⟨"2", true, ["x"]⟩]).get 1 =
        (⟨[(1, ["old"])]⟩ : RestoreDB).get 1) :=
  c10_restore_skips_empty_dir ⟨[(1, ["old"])]⟩
    [⟨"1", true, []⟩, ⟨"2", true, ["x"]⟩] ⟨"1", true, []⟩
    (by decide) (by decide) 1 (by decide) (by decide)

end Xapers
